import Mathlib

/-!
Shallow embedding of the mcp-gateway discovery core: the keyword search
strategy, the embedding search strategy with its hit reconciliation, the
find-tools operation, and the vector-index client teardown. Go strings are
modelled as lists of characters, Go maps iterated by the code as
association lists (one fixed iteration order), and the two external
collaborators (the embedding provider and the vector-index search) as
function parameters returning Except values.
-/

/-- Go strings, modelled as their character sequences. -/
abbrev GoString := List Char

/-- Translation of strings.ToLower (ASCII case folding suffices here). -/
def goToLower (s : GoString) : GoString := s.map Char.toLower

/-- Helper for substring search: the first argument occurs at the start of
the second. -/
def leadMatch : GoString → GoString → Bool
  | [], _ => true
  | _ :: _, [] => false
  | c :: cs, d :: ds => c == d && leadMatch cs ds

/-- Helper for substring search: the first argument occurs somewhere inside
the second. -/
def occursIn : GoString → GoString → Bool
  | sub, [] => leadMatch sub []
  | sub, d :: ds => leadMatch sub (d :: ds) || occursIn sub ds

/-- Translation of strings.Contains s sub. -/
def goContains (s sub : GoString) : Bool := occursIn sub s

/-- Translation of strings.TrimSpace. -/
def goTrimSpace (s : GoString) : GoString :=
  ((s.dropWhile Char.isWhitespace).reverse.dropWhile Char.isWhitespace).reverse

/-- Go map lookup, on an association-list view of the map. -/
def assocLookup {α : Type} (key : GoString) : List (GoString × α) → Option α
  | [] => none
  | (k, v) :: rest => if k = key then some v else assocLookup key rest

/-- Leaf of a free-form JSON metadata value: a string, or anything the code
never inspects further. -/
inductive JsonLeaf where
  | str : GoString → JsonLeaf
  | other : JsonLeaf
  deriving Repr, DecidableEq

/-- Free-form metadata value (Go interface value): a string, a one-level
string-keyed map (the only object shape the code inspects), or anything
else. -/
inductive JsonVal where
  | str : GoString → JsonVal
  | obj : List (GoString × JsonLeaf) → JsonVal
  | other : JsonVal
  deriving Repr, DecidableEq

/-- A required secret reference of a catalog server (only its name is read). -/
structure SecretRef where
  name : GoString
  deriving Repr, DecidableEq

/-- A tool of a catalog server, as read by the keyword strategy. -/
structure CatalogTool where
  name : GoString
  description : GoString
  deriving Repr, DecidableEq

/-- Translation of catalog.Server, restricted to the fields the discovery
core reads: Title, Description, Tools, Image, Secrets, Config, LongLived. -/
structure CatalogServer where
  title : GoString
  description : GoString
  tools : List CatalogTool
  image : GoString
  secrets : List SecretRef
  config : List JsonVal
  longLived : Bool
  deriving Repr, DecidableEq

/-- The catalog in one fixed iteration order: server name to server spec. -/
abbrev Catalog := List (GoString × CatalogServer)

/-- Modelled from the spec: g.configuration.Find, the catalog lookup
findInCatalog(name) of section 6, whose body is outside the provided
sources; the call sites only consume the found server spec and the found
flag. -/
def findInCatalog (catalog : Catalog) (name : GoString) : Option CatalogServer :=
  assocLookup name catalog

/-- One formatted server entry of a find-servers response; optional fields
model JSON keys that the Go code only sets conditionally. -/
structure ServerInfo where
  name : GoString
  description : Option GoString
  requiredSecrets : Option (List GoString)
  configSchema : Option (List JsonVal)
  longLived : Bool
  deriving Repr, DecidableEq

/-- Translation of the serverInfo map construction shared verbatim by
keywordStrategy's formatting loop and findServersByEmbedding. -/
def formatServerInfo (name : GoString) (s : CatalogServer) : ServerInfo :=
  { name := name
    description := if s.description ≠ [] then some s.description else none
    requiredSecrets :=
      if s.secrets.length > 0 then some (s.secrets.map SecretRef.name) else none
    configSchema := if s.config.length > 0 then some s.config else none
    longLived := s.longLived }

/-- Translation of the ServerMatch struct of the keyword strategy. -/
structure ServerMatch where
  name : GoString
  server : CatalogServer
  score : Nat
  deriving Repr, DecidableEq

/-- Translation of the tools loop of keywordStrategy: threads the (match,
score) pair through each tool check in order. -/
def scoreTools (query : GoString) (st : Bool × Nat) : List CatalogTool → Bool × Nat
  | [] => st
  | t :: ts =>
    let toolNameLower := goToLower t.name
    let toolDescLower := goToLower t.description
    let st' :=
      if toolNameLower = query then (true, max st.2 90)
      else if goContains toolNameLower query then (true, max st.2 40)
      else if goContains toolDescLower query then (true, max st.2 30)
      else st
    scoreTools query st' ts

/-- Translation of the server-name check that opens keywordStrategy's
catalog loop: exact match scores 100, containment 50. -/
def scoreNameStage (query serverName : GoString) : Bool × Nat :=
  let serverNameLower := goToLower serverName
  if serverNameLower = query then (true, 100)
  else if goContains serverNameLower query then (true, 50)
  else (false, 0)

/-- Translation of the title and description checks of keywordStrategy's
catalog loop, which share one shape: skipped when the field is empty,
otherwise exact match scores we and containment wc, max-combined with the
running score. -/
def scoreFieldStage (query f : GoString) (we wc : Nat) (st : Bool × Nat) : Bool × Nat :=
  if f ≠ [] then
    let fLower := goToLower f
    if fLower = query then (true, max st.2 we)
    else if goContains fLower query then (true, max st.2 wc)
    else st
  else st

/-- Translation of the image check closing keywordStrategy's catalog loop:
containment only, weight 20. -/
def scoreImageStage (query image : GoString) (st : Bool × Nat) : Bool × Nat :=
  if image ≠ [] then
    let imageLower := goToLower image
    if goContains imageLower query then (true, max st.2 20)
    else st
  else st

/-- Translation of the per-server match/score computation inside
keywordStrategy's catalog loop: name, then title, then description, then
tools, then image, with maxInt accumulation throughout. -/
def scoreServer (query serverName : GoString) (server : CatalogServer) : Bool × Nat :=
  scoreImageStage query server.image
    (scoreTools query
      (scoreFieldStage query server.description 95 45
        (scoreFieldStage query server.title 97 47
          (scoreNameStage query serverName)))
      server.tools)

/-- Proof-side view of one exact-or-contains field check as a single score
(zero when the field does not match). -/
def fieldScorePair (query f : GoString) (we wc : Nat) : Nat :=
  if goToLower f = query then we
  else if goContains (goToLower f) query then wc
  else 0

/-- Proof-side view of the score one tool contributes. -/
def toolScore (query : GoString) (t : CatalogTool) : Nat :=
  if goToLower t.name = query then 90
  else if goContains (goToLower t.name) query then 40
  else if goContains (goToLower t.description) query then 30
  else 0

/-- Translation of keywordStrategy's catalog loop: collect a ServerMatch
for every server whose match flag is set, in catalog iteration order. -/
def keywordMatches (query : GoString) : Catalog → List ServerMatch
  | [] => []
  | (n, s) :: rest =>
    let st := scoreServer query n s
    if st.1 then ⟨n, s, st.2⟩ :: keywordMatches query rest
    else keywordMatches query rest

/-- Value left at position i by keywordStrategy's inner sort loop: the
running maximum while scanning the remaining positions. -/
def bmMax (v : ServerMatch) : List ServerMatch → ServerMatch
  | [] => v
  | x :: xs => if v.score < x.score then bmMax x xs else bmMax v xs

/-- Remaining suffix produced by keywordStrategy's inner sort loop: each
swap leaves the previous position-i value behind at position j. -/
def bmRest (v : ServerMatch) : List ServerMatch → List ServerMatch
  | [] => []
  | x :: xs => if v.score < x.score then v :: bmRest x xs else x :: bmRest v xs

/-- Translation of keywordStrategy's nested exchange-sort loops; the fuel
argument plays the role of the outer loop counter and is always at least
the list length at the top-level call. -/
def sortMatchesAux : Nat → List ServerMatch → List ServerMatch
  | 0, l => l
  | _ + 1, [] => []
  | n + 1, x :: xs => bmMax x xs :: sortMatchesAux n (bmRest x xs)

/-- The complete sort step of keywordStrategy. -/
def sortMatches (l : List ServerMatch) : List ServerMatch :=
  sortMatchesAux l.length l

/-- The sorted-and-truncated match list of keywordStrategy, for an already
normalized limit. -/
def keywordRankedMatches (query : GoString) (limit : Int) (servers : Catalog) :
    List ServerMatch :=
  let sorted := sortMatches (keywordMatches query servers)
  if (sorted.length : Int) > limit then sorted.take limit.toNat else sorted

/-- Parsed arguments of a find-servers call; a missing prompt or limit key
decodes to the zero value exactly as Go json.Unmarshal does. -/
structure FindServersArgs where
  prompt : GoString
  limit : Int
  deriving Repr, DecidableEq

/-- The response object of a find-servers call. -/
structure FindServersResponse where
  prompt : GoString
  totalMatches : Nat
  servers : List ServerInfo
  deriving Repr, DecidableEq

/-- Translation of the keywordStrategy handler: argument checks, limit
normalization, query normalization, scoring, sorting, truncation and
response formatting. The request is none when Arguments is nil. -/
def keywordStrategyRun (servers : Catalog) (req : Option FindServersArgs) :
    Except String FindServersResponse :=
  match req with
  | none => Except.error "missing arguments"
  | some params =>
    if params.prompt = [] then Except.error "query parameter is required"
    else
      let limit : Int := if params.limit ≤ 0 then 10 else params.limit
      let query := goToLower (goTrimSpace params.prompt)
      let ranked := keywordRankedMatches query limit servers
      let results := ranked.map (fun m => formatServerInfo m.name m.server)
      Except.ok ⟨params.prompt, results.length, results⟩

/-- Maximum of a list of weights, zero when empty. -/
def maxList (l : List Nat) : Nat := l.foldr max 0

/-- Modelled from the spec: the exact/contains weight pair of one scored
field, as listed in the spec's weight table. -/
def exactContainsWeights (query f : GoString) (we wc : Nat) : List Nat :=
  (if goToLower f = query then [we] else []) ++
  (if goContains (goToLower f) query then [wc] else [])

/-- Modelled from the spec: the weights contributed by one tool (name
90/40, description only 30). -/
def toolWeights (query : GoString) (t : CatalogTool) : List Nat :=
  (if goToLower t.name = query then [90] else []) ++
  (if goContains (goToLower t.name) query then [40] else []) ++
  (if goContains (goToLower t.description) query then [30] else [])

/-- Modelled from the spec: all weights of matching fields of one server
(name 100/50, title 97/47, description 95/45, tool fields, image 20). -/
def specMatchWeights (query serverName : GoString) (s : CatalogServer) : List Nat :=
  exactContainsWeights query serverName 100 50 ++
  exactContainsWeights query s.title 97 47 ++
  exactContainsWeights query s.description 95 45 ++
  s.tools.flatMap (toolWeights query) ++
  (if goContains (goToLower s.image) query then [20] else [])

/-- Modelled from the spec: the server score as the spec words it, the
maximum weight among all matching fields. -/
def specKeywordScore (query serverName : GoString) (s : CatalogServer) : Nat :=
  maxList (specMatchWeights query serverName s)

/-- An embedding vector; only ever carried from the provider to the index,
never computed on, so the component type is immaterial. -/
abbrev EmbeddingVec := List Rat

/-- Translation of embeddings.SearchOptions; the empty string means the
CollectionName field is unset. -/
structure SearchOptions where
  collectionName : GoString
  excludeCollections : List GoString
  limit : Int
  deriving Repr, DecidableEq

/-- Translation of embeddings.SearchResult; Distance is carried but never
read by the discovery code, so a rational stands in for the float. -/
structure SearchResult where
  id : Int
  collection : GoString
  distance : Rat
  metadata : List (GoString × JsonVal)
  vectorLength : Nat
  deriving Repr, DecidableEq

/-- The search options findServersByEmbedding passes to SearchVectors. -/
def serverSearchOptions (limit : Int) : SearchOptions :=
  { collectionName := "mcp-server-collection".toList
    excludeCollections := []
    limit := limit }

/-- The search options findToolsByEmbedding passes to SearchVectors. -/
def toolSearchOptions : SearchOptions :=
  { collectionName := []
    excludeCollections := ["mcp-server-collection".toList]
    limit := 5 }

/-- Translation of one iteration of findServersByEmbedding's result loop:
either a formatted server entry, or the warning logged when the hit is
dropped. -/
def serverHitStep (catalog : Catalog) (r : SearchResult) :
    Option ServerInfo × Option String :=
  match assocLookup "name".toList r.metadata with
  | none => (none, some "missing name in metadata")
  | some (JsonVal.str serverName) =>
    match findInCatalog catalog serverName with
    | none => (none, some "server not found in catalog")
    | some server => (some (formatServerInfo serverName server), none)
  | some _ => (none, some "server name is not a string")

/-- The three drop conditions of the server reconciliation loop. -/
def isBadServerHit (catalog : Catalog) (r : SearchResult) : Bool :=
  match assocLookup "name".toList r.metadata with
  | none => true
  | some (JsonVal.str serverName) => (findInCatalog catalog serverName).isNone
  | some _ => true

/-- Translation of findServersByEmbedding's result loop: surviving entries
and warnings, both in hit order. -/
def reconcileServers (catalog : Catalog) : List SearchResult →
    List ServerInfo × List String
  | [] => ([], [])
  | r :: rest =>
    let step := serverHitStep catalog r
    let acc := reconcileServers catalog rest
    (step.1.toList ++ acc.1, step.2.toList ++ acc.2)

/-- The entry a surviving server hit contributes, as a total function (the
default is never reached on surviving hits). -/
def serverHitFormat (catalog : Catalog) (r : SearchResult) : ServerInfo :=
  ((serverHitStep catalog r).1).getD ⟨[], none, none, none, false⟩

/-- Translation of findServersByEmbedding: client nil check, embedding
generation, scoped search, reconciliation. The two external calls are
passed in as functions. -/
def findServersByEmbedding (catalog : Catalog) (hasClient : Bool)
    (embed : GoString → Except String EmbeddingVec)
    (search : EmbeddingVec → SearchOptions → Except String (List SearchResult))
    (query : GoString) (limit : Int) : Except String (List ServerInfo) :=
  if !hasClient then Except.error "embeddings client not initialized"
  else
    match embed query with
    | Except.error e => Except.error ("failed to generate embedding: " ++ e)
    | Except.ok queryVector =>
      match search queryVector (serverSearchOptions limit) with
      | Except.error e => Except.error ("failed to search vectors: " ++ e)
      | Except.ok results => Except.ok (reconcileServers catalog results).1

/-- Translation of the embeddingStrategy handler. -/
def embeddingStrategyRun (catalog : Catalog) (hasClient : Bool)
    (embed : GoString → Except String EmbeddingVec)
    (search : EmbeddingVec → SearchOptions → Except String (List SearchResult))
    (req : Option FindServersArgs) : Except String FindServersResponse :=
  match req with
  | none => Except.error "missing arguments"
  | some params =>
    if params.prompt = [] then Except.error "query parameter is required"
    else
      let limit : Int := if params.limit ≤ 0 then 10 else params.limit
      match findServersByEmbedding catalog hasClient embed search params.prompt limit with
      | Except.error e => Except.error ("failed to find servers: " ++ e)
      | Except.ok results => Except.ok ⟨params.prompt, results.length, results⟩

/-- A tool descriptor as held in a ToolRegistration. -/
structure MCPTool where
  name : GoString
  description : GoString
  inputSchema : Option JsonVal
  deriving Repr, DecidableEq

/-- Translation of ToolRegistration, restricted to the fields the tool
reconciliation reads. -/
structure ToolRegistration where
  serverName : GoString
  tool : MCPTool
  deriving Repr, DecidableEq

/-- The live tool registry g.toolRegistrations, keyed by tool name. -/
abbrev ToolRegistry := List (GoString × ToolRegistration)

/-- One formatted tool entry of a find-tools response; inputSchema is set
only when the registration has one. -/
structure ToolInfo where
  name : GoString
  description : GoString
  inputSchema : Option JsonVal
  deriving Repr, DecidableEq

/-- Translation of the tool-name extraction switch of findToolsByEmbedding:
a map metadata value yields its name entry when that entry is a string, a
string value yields itself, and anything else yields the empty name (the
failed type assertion leaves toolName empty). -/
def extractToolName : JsonVal → GoString
  | JsonVal.obj kvs =>
    match assocLookup "name".toList kvs with
    | some (JsonLeaf.str s) => s
    | some JsonLeaf.other => []
    | none => []
  | JsonVal.str s => s
  | JsonVal.other => []

/-- Translation of one iteration of findToolsByEmbedding's result loop. -/
def toolHitStep (registry : ToolRegistry) (r : SearchResult) :
    Option ToolInfo × Option String :=
  match assocLookup "tool".toList r.metadata with
  | none => (none, some "missing tool in metadata")
  | some v =>
    let toolName := extractToolName v
    if toolName = [] then (none, some "could not extract tool name from metadata")
    else
      match assocLookup toolName registry with
      | none => (none, some "tool not found in registrations")
      | some reg =>
        (some ⟨reg.tool.name, reg.tool.description, reg.tool.inputSchema⟩, none)

/-- The drop conditions of the tool reconciliation loop. -/
def isBadToolHit (registry : ToolRegistry) (r : SearchResult) : Bool :=
  match assocLookup "tool".toList r.metadata with
  | none => true
  | some v =>
    let toolName := extractToolName v
    if toolName = [] then true
    else (assocLookup toolName registry).isNone

/-- Translation of findToolsByEmbedding's result loop: surviving entries
and warnings, both in hit order. -/
def reconcileTools (registry : ToolRegistry) : List SearchResult →
    List ToolInfo × List String
  | [] => ([], [])
  | r :: rest =>
    let step := toolHitStep registry r
    let acc := reconcileTools registry rest
    (step.1.toList ++ acc.1, step.2.toList ++ acc.2)

/-- The entry a surviving tool hit contributes, as a total function (the
default is never reached on surviving hits). -/
def toolHitFormat (registry : ToolRegistry) (r : SearchResult) : ToolInfo :=
  ((toolHitStep registry r).1).getD ⟨[], [], none⟩

/-- Translation of findToolsByEmbedding: client nil check, embedding
generation, search excluding the server collection at the hard-coded limit
of five, reconciliation against the tool registry. -/
def findToolsByEmbedding (hasClient : Bool)
    (embed : GoString → Except String EmbeddingVec)
    (search : EmbeddingVec → SearchOptions → Except String (List SearchResult))
    (registry : ToolRegistry) (prompt : GoString) : Except String (List ToolInfo) :=
  if !hasClient then Except.error "embeddings client not initialized"
  else
    match embed prompt with
    | Except.error e => Except.error ("failed to generate embedding: " ++ e)
    | Except.ok queryVector =>
      match search queryVector toolSearchOptions with
      | Except.error e => Except.error ("failed to search vectors: " ++ e)
      | Except.ok results => Except.ok (reconcileTools registry results).1

/-- Parsed arguments of a find-tools call: only a prompt, no limit key. -/
structure FindToolsArgs where
  prompt : GoString
  deriving Repr, DecidableEq

/-- The response object of a find-tools call. -/
structure FindToolsResponse where
  tools : List ToolInfo
  deriving Repr, DecidableEq

/-- Translation of the createFindToolsTool handler. -/
def findToolsRun (hasClient : Bool)
    (embed : GoString → Except String EmbeddingVec)
    (search : EmbeddingVec → SearchOptions → Except String (List SearchResult))
    (registry : ToolRegistry) (req : Option FindToolsArgs) :
    Except String FindToolsResponse :=
  match req with
  | none => Except.error "missing arguments"
  | some params =>
    if params.prompt = [] then Except.error "prompt parameter is required"
    else
      match findToolsByEmbedding hasClient embed search registry params.prompt with
      | Except.error e => Except.error ("failed to find tools: " ++ e)
      | Except.ok tools => Except.ok ⟨tools⟩

/-- One property of a tool input schema, as declared by createFindToolsTool. -/
structure ToolSchemaProperty where
  name : GoString
  description : GoString
  deriving Repr, DecidableEq

/-- The object input schema of an MCP tool declaration. -/
structure ToolInputSchema where
  type : GoString
  properties : List ToolSchemaProperty
  required : List GoString
  deriving Repr, DecidableEq

/-- The static declaration of an externally callable MCP tool. -/
structure MCPToolDef where
  name : GoString
  description : GoString
  inputSchema : ToolInputSchema
  deriving Repr, DecidableEq

/-- Translation of the mcp.Tool literal built by createFindToolsTool. -/
def findToolsToolDef : MCPToolDef :=
  { name := "find-tools".toList
    description := ("Analyze a task description and recommend relevant MCP tools that could help accomplish it. Uses AI to intelligently match your needs to available tools.").toList
    inputSchema :=
      { type := "object".toList
        properties :=
          [{ name := "prompt".toList
             description := ("Description of the task or goal you want to accomplish. An AI will analyze this and recommend relevant tools from the available inventory.").toList }]
        required := ["prompt".toList] } }

/-- The nil-guarded fields of a VectorDBClient that Close reads and writes;
hasSession mirrors session, containerName mirrors containerName, hasCmd
mirrors cmd. Close never clears hasSession in the source. -/
structure ClientState where
  hasSession : Bool
  containerName : GoString
  hasCmd : Bool
  deriving Repr, DecidableEq

/-- Client state together with the number of session-close invocations so
far, which indexes the external session-close behaviour. -/
structure CloseWorld where
  client : ClientState
  sessionCloses : Nat
  deriving Repr, DecidableEq

/-- What one invocation of VectorDBClient.Close produces: the updated
state, the returned error, and the log lines written. -/
structure CloseOutcome where
  world : CloseWorld
  returned : Option String
  logs : List String
  deriving Repr, DecidableEq

/-- Translation of VectorDBClient.Close. The external effects are passed
in: sessErr gives the result of the k-th underlying session close, and
stopErr/waitErr the results of the docker stop and process wait steps
should they run. Failures of the stop and wait steps are only logged; the
session-close result is the returned value. -/
def closeOnce (sessErr : Nat → Option String) (stopErr waitErr : Option String)
    (w : CloseWorld) : CloseOutcome :=
  let sessionStep :=
    if w.client.hasSession then (sessErr w.sessionCloses, w.sessionCloses + 1)
    else (none, w.sessionCloses)
  let logs0 := ["close the DBClient"]
  let stopStep :=
    if w.client.containerName ≠ [] then
      (([] : GoString),
       logs0 ++ ["Stopping container"] ++
         (match stopErr with
          | some _ => ["Container stop result: error (expected if already stopped)"]
          | none => []))
    else (w.client.containerName, logs0)
  let waitStep :=
    if w.client.hasCmd then
      (false,
       stopStep.2 ++ ["Waiting for docker run process to exit"] ++
         (match waitErr with
          | some e =>
            if e = "exec: Wait was already called" then []
            else ["Docker run process exited with error"]
          | none => []))
    else (w.client.hasCmd, stopStep.2)
  { world := ⟨⟨w.client.hasSession, stopStep.1, waitStep.1⟩, sessionStep.2⟩
    returned := sessionStep.1
    logs := waitStep.2 ++ ["DBClient closed"] }

/-- The client state right after a successful NewVectorDBClient: live
session, named container, running command. -/
def freshClientWorld (containerName : GoString) : CloseWorld :=
  ⟨⟨true, containerName, true⟩, 0⟩

/-- A catalog server with only a description set; the other fields are the
Go zero values. -/
def descOnlyServer (description : GoString) : CatalogServer :=
  ⟨[], description, [], [], [], [], false⟩

/-- Four-server catalog exercising the keyword sort: scores for the query
zed are 45, 100, 45, 50 in iteration order. -/
def exCatalogSort : Catalog :=
  [("alpha".toList, descOnlyServer "zed tools".toList),
   ("zed".toList, descOnlyServer []),
   ("bravo".toList, descOnlyServer "more zed".toList),
   ("azedx".toList, descOnlyServer [])]

/-- Two-server catalog in which both servers match the query hello. -/
def exCatalogPair : Catalog :=
  [("s-one".toList, descOnlyServer "hello world".toList),
   ("s-two".toList, descOnlyServer "hello there".toList)]

/-- A session-close environment whose first close succeeds and whose later
closes fail, as an already-closed transport may. -/
def exSessErr : Nat → Option String :=
  fun k => if k = 0 then none else some "session already closed"

/-- An embedding provider that always succeeds. -/
def embedOk : GoString → Except String EmbeddingVec :=
  fun _ => Except.ok []

/-- A search call that returns a fixed hit list whatever the options. -/
def constSearch (hits : List SearchResult) :
    EmbeddingVec → SearchOptions → Except String (List SearchResult) :=
  fun _ _ => Except.ok hits

/-- A search call that answers only the tool-scoped options and fails on
any other scope; used to exhibit that discovery consults the search at its
fixed options only. -/
def scopedOnlySearch (hits : List SearchResult) :
    EmbeddingVec → SearchOptions → Except String (List SearchResult) :=
  fun _ opts => if opts = toolSearchOptions then Except.ok hits else Except.error "out of scope"

/-- A search hit carrying a well-formed server name in its metadata. -/
def exGoodServerHit (serverName : GoString) : SearchResult :=
  ⟨1, "mcp-server-collection".toList, 0, [("name".toList, JsonVal.str serverName)], 3⟩

/-- A search hit with no name entry in its metadata at all. -/
def exBadHit : SearchResult :=
  ⟨2, "mcp-server-collection".toList, 0, [], 3⟩

/-- A search hit carrying a well-formed tool name in its metadata. -/
def exGoodToolHit (toolName : GoString) : SearchResult :=
  ⟨3, "srv-tools".toList, 0, [("tool".toList, JsonVal.str toolName)], 3⟩

/-- A one-tool registry for the reconciliation examples. -/
def exRegistry : ToolRegistry :=
  [("fetch".toList, ⟨"srv".toList, ⟨"fetch".toList, "gets a page".toList, none⟩⟩)]

/-! Basic lemmas about the string model and weight lists. -/

theorem leadMatch_self (l : GoString) : leadMatch l l = true := by
  induction l with
  | nil => rfl
  | cons c cs ih => simp [leadMatch, ih]

theorem occursIn_self (l : GoString) : occursIn l l = true := by
  cases l with
  | nil => rfl
  | cons c cs => simp [occursIn, leadMatch_self]

theorem goContains_of_eq (s q : GoString) (h : s = q) : goContains s q = true := by
  subst h; exact occursIn_self s

theorem goContains_self (q : GoString) : goContains q q = true := occursIn_self q

theorem goContains_nil (q : GoString) (hq : q ≠ []) : goContains [] q = false := by
  cases q with
  | nil => exact absurd rfl hq
  | cons c cs => rfl

theorem maxList_cons (a : Nat) (l : List Nat) : maxList (a :: l) = max a (maxList l) := rfl

theorem maxList_append (l₁ l₂ : List Nat) :
    maxList (l₁ ++ l₂) = max (maxList l₁) (maxList l₂) := by
  induction l₁ with
  | nil => simp [maxList]
  | cons a l ih => simp [List.cons_append, maxList_cons, ih, Nat.max_assoc]

theorem maxList_le (l : List Nat) (n : Nat) (h : ∀ x ∈ l, x ≤ n) : maxList l ≤ n := by
  induction l with
  | nil => exact Nat.zero_le n
  | cons a t ih =>
    rw [maxList_cons]
    have ha := h a (List.mem_cons_self a t)
    have ht := ih (fun x hx => h x (List.mem_cons_of_mem a hx))
    omega

theorem maxList_exactContainsWeights (query f : GoString) (we wc : Nat) (h : wc ≤ we) :
    maxList (exactContainsWeights query f we wc) = fieldScorePair query f we wc := by
  unfold exactContainsWeights fieldScorePair
  by_cases he : goToLower f = query
  · simp [he, goContains_self, maxList]
    omega
  · by_cases hc : goContains (goToLower f) query = true
    · simp [he, hc, maxList]
    · simp [he, hc, maxList]

theorem maxList_toolWeights (query : GoString) (t : CatalogTool) :
    maxList (toolWeights query t) = toolScore query t := by
  unfold toolWeights toolScore
  by_cases h1 : goToLower t.name = query
  · by_cases h3 : goContains (goToLower t.description) query = true <;>
      simp [h1, goContains_self, h3, maxList]
  · by_cases h2 : goContains (goToLower t.name) query = true <;>
      by_cases h3 : goContains (goToLower t.description) query = true <;>
        simp [h1, h2, h3, maxList]

theorem maxList_flatMap_toolWeights (query : GoString) (ts : List CatalogTool) :
    maxList (ts.flatMap (toolWeights query)) = maxList (ts.map (toolScore query)) := by
  induction ts with
  | nil => rfl
  | cons t ts ih =>
    simp [List.flatMap_cons, List.map_cons, maxList_append, maxList_cons, ih,
      maxList_toolWeights]

/-! Stage lemmas: the keyword score accumulates the maximum of the
per-field scores. -/

theorem scoreNameStage_score (query serverName : GoString) :
    (scoreNameStage query serverName).2 = fieldScorePair query serverName 100 50 := by
  unfold scoreNameStage fieldScorePair
  by_cases he : goToLower serverName = query
  · simp [he]
  · by_cases hc : goContains (goToLower serverName) query = true <;> simp [he, hc]

theorem fieldScorePair_empty (query : GoString) (we wc : Nat) (hq : query ≠ []) :
    fieldScorePair query [] we wc = 0 := by
  unfold fieldScorePair
  have h1 : ¬(goToLower [] = query) := by
    simp only [goToLower, List.map_nil]
    exact fun h => hq h.symm
  have h2 : goContains (goToLower []) query = false := by
    simp only [goToLower, List.map_nil]
    exact goContains_nil _ hq
  simp [h1, h2]

theorem scoreFieldStage_score (query f : GoString) (we wc : Nat) (st : Bool × Nat)
    (hq : query ≠ []) :
    (scoreFieldStage query f we wc st).2 = max st.2 (fieldScorePair query f we wc) := by
  unfold scoreFieldStage
  by_cases hf : f = []
  · subst hf
    simp [fieldScorePair_empty query we wc hq]
  · by_cases he : goToLower f = query
    · simp [hf, he, fieldScorePair]
    · by_cases hc : goContains (goToLower f) query = true <;>
        simp [hf, he, hc, fieldScorePair]

theorem scoreImageStage_score (query image : GoString) (st : Bool × Nat)
    (hq : query ≠ []) :
    (scoreImageStage query image st).2 =
      max st.2 (if goContains (goToLower image) query then 20 else 0) := by
  unfold scoreImageStage
  by_cases hf : image = []
  · subst hf
    simp [goToLower, goContains_nil _ hq]
  · by_cases hc : goContains (goToLower image) query = true <;> simp [hf, hc]

theorem scoreTools_score (query : GoString) (ts : List CatalogTool) (st : Bool × Nat) :
    (scoreTools query st ts).2 = max st.2 (maxList (ts.map (toolScore query))) := by
  induction ts generalizing st with
  | nil => simp [scoreTools, maxList]
  | cons t ts ih =>
    unfold scoreTools
    by_cases h1 : goToLower t.name = query
    · simp only [h1, if_true, ih, maxList_cons, List.map_cons, toolScore, if_pos h1]
      simp only [Nat.max_def]
      repeat' split
      all_goals omega
    · by_cases h2 : goContains (goToLower t.name) query = true
      · simp only [h1, h2, if_true, if_false, ih, maxList_cons, List.map_cons, toolScore,
          if_neg h1, if_pos h2]
        simp only [Nat.max_def]
        repeat' split
        all_goals omega
      · by_cases h3 : goContains (goToLower t.description) query = true
        · simp only [h1, h2, h3, if_true, if_false, ih, maxList_cons, List.map_cons,
            toolScore, if_neg h1, if_neg h2, if_pos h3]
          simp only [Nat.max_def]
          repeat' split
          all_goals omega
        · simp only [h1, h2, h3, if_false, ih, maxList_cons, List.map_cons, toolScore,
            if_neg h1, if_neg h2, if_neg h3]
          simp only [Nat.max_def]
          repeat' split
          all_goals omega

theorem scoreServer_score (query serverName : GoString) (s : CatalogServer)
    (hq : query ≠ []) :
    (scoreServer query serverName s).2 =
      max (max (max (max (fieldScorePair query serverName 100 50)
                        (fieldScorePair query s.title 97 47))
                   (fieldScorePair query s.description 95 45))
              (maxList (s.tools.map (toolScore query))))
          (if goContains (goToLower s.image) query then 20 else 0) := by
  unfold scoreServer
  rw [scoreImageStage_score query s.image _ hq, scoreTools_score,
    scoreFieldStage_score query s.description 95 45 _ hq,
    scoreFieldStage_score query s.title 97 47 _ hq, scoreNameStage_score]

theorem fieldScorePair_le (query f : GoString) (we wc : Nat) (h : wc ≤ we) :
    fieldScorePair query f we wc ≤ we := by
  unfold fieldScorePair
  repeat' split
  all_goals omega

theorem toolScore_le (query : GoString) (t : CatalogTool) : toolScore query t ≤ 90 := by
  unfold toolScore
  repeat' split
  all_goals omega

theorem specKeywordScore_decomp (query serverName : GoString) (s : CatalogServer) :
    specKeywordScore query serverName s =
      max (max (max (max (fieldScorePair query serverName 100 50)
                        (fieldScorePair query s.title 97 47))
                   (fieldScorePair query s.description 95 45))
              (maxList (s.tools.map (toolScore query))))
          (if goContains (goToLower s.image) query then 20 else 0) := by
  unfold specKeywordScore specMatchWeights
  rw [maxList_append, maxList_append, maxList_append, maxList_append,
    maxList_exactContainsWeights query serverName 100 50 (by omega),
    maxList_exactContainsWeights query s.title 97 47 (by omega),
    maxList_exactContainsWeights query s.description 95 45 (by omega),
    maxList_flatMap_toolWeights]
  have hE : maxList (if goContains (goToLower s.image) query then [20] else []) =
      (if goContains (goToLower s.image) query then 20 else 0) := by
    by_cases hc : goContains (goToLower s.image) query = true <;> simp [hc, maxList]
  rw [hE]

/-- C1: for every non-empty query, the keyword score of a server equals the
maximum weight among all of its matching fields (name 100/50, title 97/47,
description 95/45, tool name 90/40, tool description 30, image 20), not a
sum; in particular a server whose name equals the query scores exactly 100
even when its description also contains the query. -/
theorem C1_keyword_score_is_field_max (query serverName : GoString) (s : CatalogServer)
    (hq : query ≠ []) :
    (scoreServer query serverName s).2 = specKeywordScore query serverName s ∧
    ((goToLower serverName = query ∧ goContains (goToLower s.description) query = true) →
      (scoreServer query serverName s).2 = 100) := by
  have hmain : (scoreServer query serverName s).2 = specKeywordScore query serverName s := by
    rw [scoreServer_score query serverName s hq, specKeywordScore_decomp]
  refine ⟨hmain, ?_⟩
  rintro ⟨he, -⟩
  rw [hmain, specKeywordScore_decomp]
  have h1 : fieldScorePair query serverName 100 50 = 100 := by
    unfold fieldScorePair
    simp [he]
  have h2 := fieldScorePair_le query s.title 97 47 (by omega)
  have h3 := fieldScorePair_le query s.description 95 45 (by omega)
  have h4 : maxList (s.tools.map (toolScore query)) ≤ 90 := by
    apply maxList_le
    intro x hx
    obtain ⟨t, -, rfl⟩ := List.mem_map.mp hx
    exact toolScore_le query t
  have h5 : (if goContains (goToLower s.image) query then 20 else 0) ≤ 20 := by
    split <;> omega
  simp only [Nat.max_def]
  repeat' split
  all_goals omega

/-- C1 witness: a concrete server named zed whose description contains the
query zed scores 100, matching the spec-side maximum-weight account. -/
theorem C1_keyword_score_is_field_max_witness :
    ("zed".toList : GoString) ≠ [] ∧
    (scoreServer "zed".toList "zed".toList (descOnlyServer "with zed inside".toList)).2 = 100 := by
  refine ⟨by decide, ?_⟩
  have h := C1_keyword_score_is_field_max "zed".toList "zed".toList
    (descOnlyServer "with zed inside".toList) (by decide)
  exact h.2 (by constructor <;> decide)

/-! Lemmas about the exchange sort of keywordStrategy. -/

theorem bmRest_length (v : ServerMatch) (l : List ServerMatch) :
    (bmRest v l).length = l.length := by
  induction l generalizing v with
  | nil => rfl
  | cons x xs ih =>
    unfold bmRest
    split <;> simp [ih]

theorem bmMax_score_le (v : ServerMatch) (l : List ServerMatch) :
    v.score ≤ (bmMax v l).score := by
  induction l generalizing v with
  | nil => exact Nat.le_refl _
  | cons x xs ih =>
    unfold bmMax
    split
    · rename_i hlt
      exact Nat.le_trans (Nat.le_of_lt hlt) (ih x)
    · exact ih v

theorem bmMax_mem (v : ServerMatch) (l : List ServerMatch) :
    bmMax v l ∈ v :: l := by
  induction l generalizing v with
  | nil => exact List.mem_cons_self _ _
  | cons x xs ih =>
    unfold bmMax
    split
    · have h := ih x
      simp [List.mem_cons] at h ⊢
      tauto
    · have h := ih v
      simp [List.mem_cons] at h ⊢
      tauto

theorem bmRest_mem (v : ServerMatch) (l : List ServerMatch) (y : ServerMatch)
    (hy : y ∈ bmRest v l) : y ∈ v :: l := by
  induction l generalizing v with
  | nil => simp [bmRest] at hy
  | cons x xs ih =>
    unfold bmRest at hy
    split at hy
    · rcases List.mem_cons.mp hy with rfl | hy'
      · exact List.mem_cons_self _ _
      · have h := ih x hy'
        simp [List.mem_cons] at h ⊢
        tauto
    · rcases List.mem_cons.mp hy with rfl | hy'
      · simp [List.mem_cons]
      · have h := ih v hy'
        simp [List.mem_cons] at h ⊢
        tauto

theorem bmRest_score_le (v : ServerMatch) (l : List ServerMatch) (y : ServerMatch)
    (hy : y ∈ bmRest v l) : y.score ≤ (bmMax v l).score := by
  induction l generalizing v with
  | nil => simp [bmRest] at hy
  | cons x xs ih =>
    unfold bmRest at hy
    unfold bmMax
    split
    · rename_i hlt
      rw [if_pos hlt] at hy
      rcases List.mem_cons.mp hy with rfl | hy'
      · exact Nat.le_trans (Nat.le_of_lt hlt) (bmMax_score_le x xs)
      · exact ih x hy'
    · rename_i hge
      rw [if_neg hge] at hy
      rcases List.mem_cons.mp hy with rfl | hy'
      · exact Nat.le_trans (Nat.le_of_not_lt hge) (bmMax_score_le v xs)
      · exact ih v hy'

theorem sortMatchesAux_mem (n : Nat) (l : List ServerMatch) (y : ServerMatch)
    (hy : y ∈ sortMatchesAux n l) : y ∈ l := by
  induction n generalizing l with
  | zero => simpa [sortMatchesAux] using hy
  | succ n ih =>
    cases l with
    | nil => simp [sortMatchesAux] at hy
    | cons x xs =>
      rw [sortMatchesAux] at hy
      rcases List.mem_cons.mp hy with rfl | hy'
      · exact bmMax_mem x xs
      · exact bmRest_mem x xs y (ih _ hy')

theorem sortMatchesAux_sorted (n : Nat) (l : List ServerMatch) (h : l.length ≤ n) :
    (sortMatchesAux n l).Pairwise (fun a b => b.score ≤ a.score) := by
  induction n generalizing l with
  | zero =>
    have hl : l = [] := List.eq_nil_of_length_eq_zero (Nat.le_zero.mp h)
    subst hl
    simp [sortMatchesAux]
  | succ n ih =>
    cases l with
    | nil => simp [sortMatchesAux]
    | cons x xs =>
      rw [sortMatchesAux]
      refine List.pairwise_cons.mpr ⟨?_, ?_⟩
      · intro y hy
        exact bmRest_score_le x xs y (sortMatchesAux_mem n _ y hy)
      · apply ih
        rw [bmRest_length]
        exact Nat.le_of_succ_le_succ (by simpa using h)

theorem sortMatches_sorted (l : List ServerMatch) :
    (sortMatches l).Pairwise (fun a b => b.score ≤ a.score) :=
  sortMatchesAux_sorted l.length l (Nat.le_refl _)

/-- C2 (amended): the match list returned by the keyword strategy is sorted
by non-increasing score; no stability promise is made for ties. -/
theorem C2_keyword_output_sorted (query : GoString) (limit : Int) (servers : Catalog) :
    (keywordRankedMatches query limit servers).Pairwise (fun a b => b.score ≤ a.score) := by
  show List.Pairwise (fun a b => b.score ≤ a.score)
    (if ((sortMatches (keywordMatches query servers)).length : Int) > limit then
      (sortMatches (keywordMatches query servers)).take limit.toNat
    else sortMatches (keywordMatches query servers))
  split
  · exact (sortMatches_sorted _).sublist (List.take_sublist _ _)
  · exact sortMatches_sorted _

/-- C2 counterexample: on a four-server catalog with scores 45, 100, 45, 50
in iteration order, the two score-45 servers come back in the opposite of
their catalog order (bravo before alpha), so the exchange sort is not
stable and the tie-order half of the claim fails. -/
theorem C2_stable_tie_counterexample :
    (keywordMatches "zed".toList exCatalogSort).map (fun m => (m.name, m.score)) =
      [("alpha".toList, 45), ("zed".toList, 100), ("bravo".toList, 45),
       ("azedx".toList, 50)] ∧
    (keywordRankedMatches "zed".toList 10 exCatalogSort).map (fun m => (m.name, m.score)) =
      [("zed".toList, 100), ("azedx".toList, 50), ("bravo".toList, 45),
       ("alpha".toList, 45)] ∧
    keywordStrategyRun exCatalogSort (some ⟨"zed".toList, 0⟩) =
      Except.ok
        ⟨"zed".toList, 4,
         [⟨"zed".toList, none, none, none, false⟩,
          ⟨"azedx".toList, none, none, none, false⟩,
          ⟨"bravo".toList, some "more zed".toList, none, none, false⟩,
          ⟨"alpha".toList, some "zed tools".toList, none, none, false⟩]⟩ := by
  refine ⟨by decide, by decide, ?_⟩
  rfl

/-! Lemmas about the find-servers handlers. -/

theorem keywordStrategyRun_ok (servers : Catalog) (params : FindServersArgs)
    (hp : ¬(params.prompt = [])) :
    keywordStrategyRun servers (some params) =
      Except.ok ⟨params.prompt,
        ((keywordRankedMatches (goToLower (goTrimSpace params.prompt))
            (if params.limit ≤ 0 then 10 else params.limit) servers).map
          (fun m => formatServerInfo m.name m.server)).length,
        (keywordRankedMatches (goToLower (goTrimSpace params.prompt))
            (if params.limit ≤ 0 then 10 else params.limit) servers).map
          (fun m => formatServerInfo m.name m.server)⟩ := by
  rw [keywordStrategyRun, if_neg hp]

theorem embeddingStrategyRun_ok (catalog : Catalog) (hasClient : Bool)
    (embed : GoString → Except String EmbeddingVec)
    (search : EmbeddingVec → SearchOptions → Except String (List SearchResult))
    (params : FindServersArgs) (hp : ¬(params.prompt = [])) :
    embeddingStrategyRun catalog hasClient embed search (some params) =
      match findServersByEmbedding catalog hasClient embed search params.prompt
          (if params.limit ≤ 0 then 10 else params.limit) with
      | Except.error e => Except.error ("failed to find servers: " ++ e)
      | Except.ok results => Except.ok ⟨params.prompt, results.length, results⟩ := by
  rw [embeddingStrategyRun, if_neg hp]

theorem keywordRankedMatches_length_le (query : GoString) (limit : Int)
    (servers : Catalog) (hpos : 0 < limit) :
    ((keywordRankedMatches query limit servers).length : Int) ≤ limit := by
  show ((if ((sortMatches (keywordMatches query servers)).length : Int) > limit then
      (sortMatches (keywordMatches query servers)).take limit.toNat
    else sortMatches (keywordMatches query servers)).length : Int) ≤ limit
  split
  · rename_i h
    rw [List.length_take]
    have h2 : min limit.toNat (sortMatches (keywordMatches query servers)).length ≤
        limit.toNat := Nat.min_le_left _ _
    omega
  · rename_i h
    omega

theorem reconcileServers_fst_length_le (catalog : Catalog) (l : List SearchResult) :
    (reconcileServers catalog l).1.length ≤ l.length := by
  induction l with
  | nil => simp [reconcileServers]
  | cons r rest ih =>
    rw [reconcileServers]
    rw [List.length_append]
    have h1 : (serverHitStep catalog r).1.toList.length ≤ 1 := by
      cases (serverHitStep catalog r).1 <;> simp
    simp only [List.length_cons]
    omega

theorem reconcileTools_fst_length_le (registry : ToolRegistry) (l : List SearchResult) :
    (reconcileTools registry l).1.length ≤ l.length := by
  induction l with
  | nil => simp [reconcileTools]
  | cons r rest ih =>
    rw [reconcileTools]
    rw [List.length_append]
    have h1 : (toolHitStep registry r).1.toList.length ≤ 1 := by
      cases (toolHitStep registry r).1 <;> simp
    simp only [List.length_cons]
    omega

/-- C5: both find-servers strategies normalize a non-positive limit to 10
and return at most the effective limit of servers; the embedding side
assumes only that the index search honors the limit it is passed. -/
theorem C5_limit_normalized_and_enforced :
    (∀ (servers : Catalog) (params : FindServersArgs) (resp : FindServersResponse),
      keywordStrategyRun servers (some params) = Except.ok resp →
      ((resp.servers.length : Int) ≤ (if params.limit ≤ 0 then 10 else params.limit))) ∧
    (∀ (catalog : Catalog) (hasClient : Bool)
      (embed : GoString → Except String EmbeddingVec)
      (search : EmbeddingVec → SearchOptions → Except String (List SearchResult))
      (params : FindServersArgs) (resp : FindServersResponse),
      (∀ v opts hits, search v opts = Except.ok hits → hits.length ≤ opts.limit.toNat) →
      embeddingStrategyRun catalog hasClient embed search (some params) = Except.ok resp →
      ((resp.servers.length : Int) ≤ (if params.limit ≤ 0 then 10 else params.limit))) := by
  constructor
  · intro servers params resp h
    by_cases hp : params.prompt = []
    · rw [keywordStrategyRun, if_pos hp] at h
      exact absurd h (by simp)
    · rw [keywordStrategyRun_ok servers params hp] at h
      have hr := (Except.ok.injEq _ _).mp h
      subst hr
      simp only [List.length_map]
      apply keywordRankedMatches_length_le
      split <;> omega
  · intro catalog hasClient embed search params resp hsearch h
    by_cases hp : params.prompt = []
    · rw [embeddingStrategyRun, if_pos hp] at h
      exact absurd h (by simp)
    · rw [embeddingStrategyRun_ok catalog hasClient embed search params hp] at h
      cases hfind : findServersByEmbedding catalog hasClient embed search params.prompt
          (if params.limit ≤ 0 then 10 else params.limit) with
      | error e => rw [hfind] at h; exact absurd h (by simp)
      | ok results =>
        rw [hfind] at h
        have hr := (Except.ok.injEq _ _).mp h
        subst hr
        simp only
        rw [findServersByEmbedding] at hfind
        cases hasClient with
        | false => exact absurd hfind (by simp)
        | true =>
          rw [if_neg (by simp)] at hfind
          cases hemb : embed params.prompt with
          | error e => rw [hemb] at hfind; exact absurd hfind (by simp)
          | ok v =>
            rw [hemb] at hfind
            simp only [Except.ok.injEq] at hfind
            cases hs : search v (serverSearchOptions
                (if params.limit ≤ 0 then 10 else params.limit)) with
            | error e =>
              rw [hs] at hfind
              simp at hfind
            | ok hits =>
              rw [hs] at hfind
              simp at hfind
              subst hfind
              have h1 := reconcileServers_fst_length_le catalog hits
              have h2 := hsearch v _ hits hs
              simp only [serverSearchOptions] at h2
              have h3 : (0 : Int) < (if params.limit ≤ 0 then 10 else params.limit) := by
                split <;> omega
              omega

/-- C5 witness: with limit 0 the keyword strategy returns at most 10
servers on a two-server catalog, and the embedding strategy with limit 3
and a limit-honoring search returns at most 3. -/
theorem C5_limit_normalized_and_enforced_witness :
    keywordStrategyRun exCatalogPair (some ⟨"hello".toList, 0⟩) =
      Except.ok ⟨"hello".toList, 2,
        [⟨"s-one".toList, some "hello world".toList, none, none, false⟩,
         ⟨"s-two".toList, some "hello there".toList, none, none, false⟩]⟩ ∧
    ((2 : Int) ≤ (if (0 : Int) ≤ 0 then 10 else (0 : Int))) ∧
    embeddingStrategyRun [] true embedOk (constSearch []) (some ⟨"hi".toList, 3⟩) =
      Except.ok ⟨"hi".toList, 0, []⟩ ∧
    ((0 : Int) ≤ (if (3 : Int) ≤ 0 then 10 else (3 : Int))) := by
  have hk := C5_limit_normalized_and_enforced.1 exCatalogPair ⟨"hello".toList, 0⟩
    ⟨"hello".toList, 2,
      [⟨"s-one".toList, some "hello world".toList, none, none, false⟩,
       ⟨"s-two".toList, some "hello there".toList, none, none, false⟩]⟩ (by rfl)
  have he := C5_limit_normalized_and_enforced.2 [] true embedOk (constSearch [])
    ⟨"hi".toList, 3⟩ ⟨"hi".toList, 0, []⟩
    (by
      intro v opts hits h
      simp [constSearch] at h
      subst h
      simp)
    (by rfl)
  exact ⟨by rfl, by exact hk, by rfl, by exact he⟩

/-- C6: a find-servers call under either strategy and a find-tools call
with missing arguments or an empty prompt fail immediately with an input
error; the error constructor carries no partial result. -/
theorem C6_empty_prompt_is_input_error :
    (∀ servers, keywordStrategyRun servers none = Except.error "missing arguments") ∧
    (∀ servers params, params.prompt = [] →
      keywordStrategyRun servers (some params) =
        Except.error "query parameter is required") ∧
    (∀ catalog hasClient embed search,
      embeddingStrategyRun catalog hasClient embed search none =
        Except.error "missing arguments") ∧
    (∀ catalog hasClient embed search params, params.prompt = [] →
      embeddingStrategyRun catalog hasClient embed search (some params) =
        Except.error "query parameter is required") ∧
    (∀ hasClient embed search registry,
      findToolsRun hasClient embed search registry none =
        Except.error "missing arguments") ∧
    (∀ hasClient embed search registry params, params.prompt = [] →
      findToolsRun hasClient embed search registry (some params) =
        Except.error "prompt parameter is required") := by
  refine ⟨fun servers => rfl, ?_, fun catalog hasClient embed search => rfl, ?_,
    fun hasClient embed search registry => rfl, ?_⟩
  · intro servers params hp
    rw [keywordStrategyRun, if_pos hp]
  · intro catalog hasClient embed search params hp
    rw [embeddingStrategyRun, if_pos hp]
  · intro hasClient embed search registry params hp
    rw [findToolsRun, if_pos hp]

/-- C6 witness: the six error cases at concrete arguments. -/
theorem C6_empty_prompt_is_input_error_witness :
    keywordStrategyRun [] none = Except.error "missing arguments" ∧
    keywordStrategyRun [] (some ⟨[], 5⟩) = Except.error "query parameter is required" ∧
    embeddingStrategyRun [] true embedOk (constSearch []) none =
      Except.error "missing arguments" ∧
    embeddingStrategyRun [] true embedOk (constSearch []) (some ⟨[], 5⟩) =
      Except.error "query parameter is required" ∧
    findToolsRun true embedOk (constSearch []) exRegistry none =
      Except.error "missing arguments" ∧
    findToolsRun true embedOk (constSearch []) exRegistry (some ⟨[]⟩) =
      Except.error "prompt parameter is required" := by
  have h := C6_empty_prompt_is_input_error
  exact ⟨h.1 [], h.2.1 [] ⟨[], 5⟩ rfl, h.2.2.1 [] true embedOk (constSearch []),
    h.2.2.2.1 [] true embedOk (constSearch []) ⟨[], 5⟩ rfl,
    h.2.2.2.2.1 true embedOk (constSearch []) exRegistry,
    h.2.2.2.2.2 true embedOk (constSearch []) exRegistry ⟨[]⟩ rfl⟩

/-- C10: in every successful find-servers response of either strategy the
total-matches field equals the length of the servers array of that same
response; concretely, two servers match hello but with limit 1 the
response reports total matches 1, not the pre-truncation count 2. -/
theorem C10_total_matches_is_response_length :
    (∀ servers req resp, keywordStrategyRun servers req = Except.ok resp →
      resp.totalMatches = resp.servers.length) ∧
    (∀ catalog hasClient embed search req resp,
      embeddingStrategyRun catalog hasClient embed search req = Except.ok resp →
      resp.totalMatches = resp.servers.length) ∧
    keywordStrategyRun exCatalogPair (some ⟨"hello".toList, 1⟩) =
      Except.ok ⟨"hello".toList, 1,
        [⟨"s-one".toList, some "hello world".toList, none, none, false⟩]⟩ ∧
    (keywordMatches "hello".toList exCatalogPair).length = 2 := by
  refine ⟨?_, ?_, by rfl, by decide⟩
  · intro servers req resp h
    cases req with
    | none => exact absurd h (by simp [keywordStrategyRun])
    | some params =>
      by_cases hp : params.prompt = []
      · rw [keywordStrategyRun, if_pos hp] at h
        exact absurd h (by simp)
      · rw [keywordStrategyRun_ok servers params hp] at h
        have hr := (Except.ok.injEq _ _).mp h
        subst hr
        rfl
  · intro catalog hasClient embed search req resp h
    cases req with
    | none => exact absurd h (by simp [embeddingStrategyRun])
    | some params =>
      by_cases hp : params.prompt = []
      · rw [embeddingStrategyRun, if_pos hp] at h
        exact absurd h (by simp)
      · rw [embeddingStrategyRun_ok catalog hasClient embed search params hp] at h
        cases hfind : findServersByEmbedding catalog hasClient embed search params.prompt
            (if params.limit ≤ 0 then 10 else params.limit) with
        | error e => rw [hfind] at h; exact absurd h (by simp)
        | ok results =>
          rw [hfind] at h
          have hr := (Except.ok.injEq _ _).mp h
          subst hr
          rfl

/-- C10 witness: the first two parts applied to the concrete limit-1 run. -/
theorem C10_total_matches_is_response_length_witness :
    (FindServersResponse.totalMatches
        ⟨"hello".toList, 1,
         [⟨"s-one".toList, some "hello world".toList, none, none, false⟩]⟩ =
      (FindServersResponse.servers
        ⟨"hello".toList, 1,
         [⟨"s-one".toList, some "hello world".toList, none, none, false⟩]⟩).length) ∧
    (FindServersResponse.totalMatches (⟨"hi".toList, 0, []⟩ : FindServersResponse) =
      (FindServersResponse.servers (⟨"hi".toList, 0, []⟩ : FindServersResponse)).length) := by
  constructor
  · exact C10_total_matches_is_response_length.1 exCatalogPair
      (some ⟨"hello".toList, 1⟩)
      ⟨"hello".toList, 1,
       [⟨"s-one".toList, some "hello world".toList, none, none, false⟩]⟩ (by rfl)
  · exact C10_total_matches_is_response_length.2.1 [] true embedOk (constSearch [])
      (some ⟨"hi".toList, 3⟩) ⟨"hi".toList, 0, []⟩ (by rfl)

/-! Lemmas about embedding-path reconciliation. -/

theorem serverHitStep_fst_none_iff (catalog : Catalog) (r : SearchResult) :
    (serverHitStep catalog r).1 = none ↔ isBadServerHit catalog r = true := by
  unfold serverHitStep isBadServerHit
  cases h : assocLookup "name".toList r.metadata with
  | none => simp
  | some v =>
    cases v with
    | str n =>
      cases hf : findInCatalog catalog n with
      | none => simp [hf]
      | some s => simp [hf]
    | obj kvs => simp
    | other => simp

theorem toolHitStep_fst_none_iff (registry : ToolRegistry) (r : SearchResult) :
    (toolHitStep registry r).1 = none ↔ isBadToolHit registry r = true := by
  unfold toolHitStep isBadToolHit
  cases h : assocLookup "tool".toList r.metadata with
  | none => simp
  | some v =>
    by_cases hn : extractToolName v = []
    · simp [hn]
    · cases hl : assocLookup (extractToolName v) registry with
      | none => simp [hn, hl]
      | some reg => simp [hn, hl]

theorem serverHitStep_of_bad (catalog : Catalog) (r : SearchResult)
    (hb : isBadServerHit catalog r = true) :
    ∃ w, serverHitStep catalog r = (none, some w) := by
  unfold isBadServerHit at hb
  cases h : assocLookup "name".toList r.metadata with
  | none =>
    exact ⟨"missing name in metadata", by unfold serverHitStep; rw [h]⟩
  | some v =>
    cases v with
    | str n =>
      cases hf : findInCatalog catalog n with
      | none =>
        exact ⟨"server not found in catalog", by unfold serverHitStep; rw [h]; simp [hf]⟩
      | some s =>
        rw [h] at hb
        simp [hf] at hb
    | obj kvs =>
      exact ⟨"server name is not a string", by unfold serverHitStep; rw [h]⟩
    | other =>
      exact ⟨"server name is not a string", by unfold serverHitStep; rw [h]⟩

theorem toolHitStep_of_bad (registry : ToolRegistry) (r : SearchResult)
    (hb : isBadToolHit registry r = true) :
    ∃ w, toolHitStep registry r = (none, some w) := by
  unfold isBadToolHit at hb
  cases h : assocLookup "tool".toList r.metadata with
  | none =>
    exact ⟨"missing tool in metadata", by unfold toolHitStep; rw [h]⟩
  | some v =>
    by_cases hn : extractToolName v = []
    · exact ⟨"could not extract tool name from metadata",
        by unfold toolHitStep; rw [h]; simp [hn]⟩
    · cases hl : assocLookup (extractToolName v) registry with
      | none =>
        exact ⟨"tool not found in registrations",
          by unfold toolHitStep; rw [h]; simp [hn, hl]⟩
      | some reg =>
        rw [h] at hb
        simp [hn, hl] at hb

theorem reconcileServers_append_bad (catalog : Catalog) (pre post : List SearchResult)
    (r : SearchResult) (w : String) (hr : serverHitStep catalog r = (none, some w)) :
    reconcileServers catalog (pre ++ r :: post) =
      ((reconcileServers catalog pre).1 ++ (reconcileServers catalog post).1,
       (reconcileServers catalog pre).2 ++ w :: (reconcileServers catalog post).2) := by
  induction pre with
  | nil => simp [reconcileServers, hr]
  | cons p pre ih =>
    simp only [List.cons_append, reconcileServers, ih]
    simp [List.append_assoc]
    exact ⟨congrArg Prod.fst ih, congrArg Prod.snd ih⟩

theorem reconcileTools_append_bad (registry : ToolRegistry) (pre post : List SearchResult)
    (r : SearchResult) (w : String) (hr : toolHitStep registry r = (none, some w)) :
    reconcileTools registry (pre ++ r :: post) =
      ((reconcileTools registry pre).1 ++ (reconcileTools registry post).1,
       (reconcileTools registry pre).2 ++ w :: (reconcileTools registry post).2) := by
  induction pre with
  | nil => simp [reconcileTools, hr]
  | cons p pre ih =>
    simp only [List.cons_append, reconcileTools, ih]
    simp [List.append_assoc]
    exact ⟨congrArg Prod.fst ih, congrArg Prod.snd ih⟩

/-- C8: embedding-path reconciliation preserves the order in which the
search returned the hits: the output is exactly the in-order survivors,
formatted, with no secondary sort, for both server and tool discovery. -/
theorem C8_reconciliation_preserves_search_order :
    (∀ (catalog : Catalog) (hits : List SearchResult),
      (reconcileServers catalog hits).1 =
        (hits.filter (fun r => !isBadServerHit catalog r)).map (serverHitFormat catalog)) ∧
    (∀ (registry : ToolRegistry) (hits : List SearchResult),
      (reconcileTools registry hits).1 =
        (hits.filter (fun r => !isBadToolHit registry r)).map (toolHitFormat registry)) := by
  constructor
  · intro catalog hits
    induction hits with
    | nil => rfl
    | cons r rest ih =>
      rw [reconcileServers]
      by_cases hb : isBadServerHit catalog r = true
      · have h0 : (serverHitStep catalog r).1 = none :=
          (serverHitStep_fst_none_iff catalog r).mpr hb
        simp [List.filter_cons, hb, h0, ih]
      · have hb' : isBadServerHit catalog r = false := by
          cases hx : isBadServerHit catalog r
          · rfl
          · exact absurd hx hb
        have h0 : ¬((serverHitStep catalog r).1 = none) := fun h =>
          hb ((serverHitStep_fst_none_iff catalog r).mp h)
        obtain ⟨info, hinfo⟩ := Option.ne_none_iff_exists'.mp h0
        simp [List.filter_cons, hb', hinfo, ih, serverHitFormat]
  · intro registry hits
    induction hits with
    | nil => rfl
    | cons r rest ih =>
      rw [reconcileTools]
      by_cases hb : isBadToolHit registry r = true
      · have h0 : (toolHitStep registry r).1 = none :=
          (toolHitStep_fst_none_iff registry r).mpr hb
        simp [List.filter_cons, hb, h0, ih]
      · have hb' : isBadToolHit registry r = false := by
          cases hx : isBadToolHit registry r
          · rfl
          · exact absurd hx hb
        have h0 : ¬((toolHitStep registry r).1 = none) := fun h =>
          hb ((toolHitStep_fst_none_iff registry r).mp h)
        obtain ⟨info, hinfo⟩ := Option.ne_none_iff_exists'.mp h0
        simp [List.filter_cons, hb', hinfo, ih, toolHitFormat]

/-- C3: a hit whose metadata lacks a name, whose name is not a string, or
whose name does not resolve is dropped with one warning while every other
hit is still processed, and a discovery call whose embedding and search
steps succeed returns ok on reconciliation, never an error. -/
theorem C3_bad_hits_dropped_without_failing :
    (∀ (catalog : Catalog) (embed : GoString → Except String EmbeddingVec)
       (search : EmbeddingVec → SearchOptions → Except String (List SearchResult))
       (query : GoString) (limit : Int) (v : EmbeddingVec) (hits : List SearchResult),
      embed query = Except.ok v →
      search v (serverSearchOptions limit) = Except.ok hits →
      findServersByEmbedding catalog true embed search query limit =
        Except.ok (reconcileServers catalog hits).1) ∧
    (∀ (catalog : Catalog) (pre post : List SearchResult) (r : SearchResult),
      isBadServerHit catalog r = true →
      ∃ w, serverHitStep catalog r = (none, some w) ∧
        reconcileServers catalog (pre ++ r :: post) =
          ((reconcileServers catalog pre).1 ++ (reconcileServers catalog post).1,
           (reconcileServers catalog pre).2 ++ w :: (reconcileServers catalog post).2)) ∧
    (∀ (registry : ToolRegistry) (embed : GoString → Except String EmbeddingVec)
       (search : EmbeddingVec → SearchOptions → Except String (List SearchResult))
       (prompt : GoString) (v : EmbeddingVec) (hits : List SearchResult),
      embed prompt = Except.ok v →
      search v toolSearchOptions = Except.ok hits →
      findToolsByEmbedding true embed search registry prompt =
        Except.ok (reconcileTools registry hits).1) ∧
    (∀ (registry : ToolRegistry) (pre post : List SearchResult) (r : SearchResult),
      isBadToolHit registry r = true →
      ∃ w, toolHitStep registry r = (none, some w) ∧
        reconcileTools registry (pre ++ r :: post) =
          ((reconcileTools registry pre).1 ++ (reconcileTools registry post).1,
           (reconcileTools registry pre).2 ++ w :: (reconcileTools registry post).2)) := by
  refine ⟨?_, ?_, ?_, ?_⟩
  · intro catalog embed search query limit v hits he hs
    simp [findServersByEmbedding, he, hs]
  · intro catalog pre post r hb
    obtain ⟨w, hw⟩ := serverHitStep_of_bad catalog r hb
    exact ⟨w, hw, reconcileServers_append_bad catalog pre post r w hw⟩
  · intro registry embed search prompt v hits he hs
    simp [findToolsByEmbedding, he, hs]
  · intro registry pre post r hb
    obtain ⟨w, hw⟩ := toolHitStep_of_bad registry r hb
    exact ⟨w, hw, reconcileTools_append_bad registry pre post r w hw⟩

/-- C3 witness: with one malformed hit among well-formed ones, server and
tool discovery both succeed, drop only that hit, and keep the rest. -/
theorem C3_bad_hits_dropped_without_failing_witness :
    findServersByEmbedding exCatalogPair true embedOk
        (constSearch [exBadHit, exGoodServerHit "s-one".toList]) "q".toList 10 =
      Except.ok [⟨"s-one".toList, some "hello world".toList, none, none, false⟩] ∧
    (reconcileServers exCatalogPair
        ([exGoodServerHit "s-one".toList] ++ exBadHit :: [exGoodServerHit "s-two".toList])).1 =
      (reconcileServers exCatalogPair [exGoodServerHit "s-one".toList]).1 ++
        (reconcileServers exCatalogPair [exGoodServerHit "s-two".toList]).1 ∧
    findToolsByEmbedding true embedOk
        (constSearch [exGoodToolHit "fetch".toList, exBadHit]) exRegistry "q".toList =
      Except.ok [⟨"fetch".toList, "gets a page".toList, none⟩] := by
  refine ⟨?_, ?_, ?_⟩
  · exact C3_bad_hits_dropped_without_failing.1 exCatalogPair embedOk
      (constSearch [exBadHit, exGoodServerHit "s-one".toList]) "q".toList 10 []
      [exBadHit, exGoodServerHit "s-one".toList] rfl rfl
  · obtain ⟨w, hw, hrec⟩ := C3_bad_hits_dropped_without_failing.2.1 exCatalogPair
      [exGoodServerHit "s-one".toList] [exGoodServerHit "s-two".toList] exBadHit (by decide)
    exact congrArg Prod.fst hrec
  · exact C3_bad_hits_dropped_without_failing.2.2.1 exRegistry embedOk
      (constSearch [exGoodToolHit "fetch".toList, exBadHit]) "q".toList []
      [exGoodToolHit "fetch".toList, exBadHit] rfl rfl

/-! Lemmas about search scoping and the find-tools limit. -/

theorem findToolsRun_ok (hasClient : Bool)
    (embed : GoString → Except String EmbeddingVec)
    (search : EmbeddingVec → SearchOptions → Except String (List SearchResult))
    (registry : ToolRegistry) (params : FindToolsArgs) (hp : ¬(params.prompt = [])) :
    findToolsRun hasClient embed search registry (some params) =
      match findToolsByEmbedding hasClient embed search registry params.prompt with
      | Except.error e => Except.error ("failed to find tools: " ++ e)
      | Except.ok tools => Except.ok ⟨tools⟩ := by
  rw [findToolsRun, if_neg hp]

theorem findToolsByEmbedding_length_le (hasClient : Bool)
    (embed : GoString → Except String EmbeddingVec)
    (search : EmbeddingVec → SearchOptions → Except String (List SearchResult))
    (registry : ToolRegistry) (prompt : GoString) (tools : List ToolInfo)
    (hsearch : ∀ v opts hits, search v opts = Except.ok hits → hits.length ≤ opts.limit.toNat)
    (h : findToolsByEmbedding hasClient embed search registry prompt = Except.ok tools) :
    tools.length ≤ 5 := by
  rw [findToolsByEmbedding] at h
  cases hasClient with
  | false => exact absurd h (by simp)
  | true =>
    rw [if_neg (by simp)] at h
    cases hemb : embed prompt with
    | error e => rw [hemb] at h; exact absurd h (by simp)
    | ok v =>
      rw [hemb] at h
      simp only [Except.ok.injEq] at h
      cases hs : search v toolSearchOptions with
      | error e =>
        rw [hs] at h
        simp at h
      | ok hits =>
        rw [hs] at h
        simp at h
        subst h
        have h1 := reconcileTools_fst_length_le registry hits
        have h2 := hsearch v _ hits hs
        simp only [toolSearchOptions] at h2
        omega

/-- C7: tool discovery always searches with the server collection excluded
and no single-collection restriction, server discovery always searches
restricted to exactly the server collection; each discovery consults the
search only at those options, and under a scope-honoring search no tool
hit can come from the server collection while every server hit does. -/
theorem C7_collection_scoping :
    toolSearchOptions.collectionName = [] ∧
    toolSearchOptions.excludeCollections = ["mcp-server-collection".toList] ∧
    (∀ limit : Int, (serverSearchOptions limit).collectionName =
        "mcp-server-collection".toList ∧ (serverSearchOptions limit).excludeCollections = []) ∧
    (∀ (hasClient : Bool) (embed : GoString → Except String EmbeddingVec)
       (s₁ s₂ : EmbeddingVec → SearchOptions → Except String (List SearchResult))
       (registry : ToolRegistry) (prompt : GoString),
      (∀ v, s₁ v toolSearchOptions = s₂ v toolSearchOptions) →
      findToolsByEmbedding hasClient embed s₁ registry prompt =
        findToolsByEmbedding hasClient embed s₂ registry prompt) ∧
    (∀ (catalog : Catalog) (hasClient : Bool)
       (embed : GoString → Except String EmbeddingVec)
       (s₁ s₂ : EmbeddingVec → SearchOptions → Except String (List SearchResult))
       (query : GoString) (limit : Int),
      (∀ v, s₁ v (serverSearchOptions limit) = s₂ v (serverSearchOptions limit)) →
      findServersByEmbedding catalog hasClient embed s₁ query limit =
        findServersByEmbedding catalog hasClient embed s₂ query limit) ∧
    (∀ hits : List SearchResult,
      (∀ r ∈ hits, r.collection ∉ toolSearchOptions.excludeCollections) →
      ∀ r ∈ hits, r.collection ≠ "mcp-server-collection".toList) ∧
    (∀ (hits : List SearchResult) (limit : Int),
      (∀ r ∈ hits, r.collection = (serverSearchOptions limit).collectionName) →
      ∀ r ∈ hits, r.collection = "mcp-server-collection".toList) := by
  refine ⟨rfl, rfl, fun limit => ⟨rfl, rfl⟩, ?_, ?_, ?_, ?_⟩
  · intro hasClient embed s₁ s₂ registry prompt hagree
    cases hasClient with
    | false => rfl
    | true =>
      cases hemb : embed prompt with
      | error e => simp [findToolsByEmbedding, hemb]
      | ok v => simp [findToolsByEmbedding, hemb, hagree]
  · intro catalog hasClient embed s₁ s₂ query limit hagree
    cases hasClient with
    | false => rfl
    | true =>
      cases hemb : embed query with
      | error e => simp [findServersByEmbedding, hemb]
      | ok v => simp [findServersByEmbedding, hemb, hagree]
  · intro hits h r hr
    have h2 := h r hr
    simpa [toolSearchOptions] using h2
  · intro hits limit h r hr
    exact h r hr

/-- C7 witness: two search oracles that agree on the tool-scoped options
yield identical tool discovery results, and the survivors of the scoping
hypotheses at concrete hits are established through the theorem. -/
theorem C7_collection_scoping_witness :
    findToolsByEmbedding true embedOk (constSearch [exGoodToolHit "fetch".toList])
        exRegistry "q".toList =
      findToolsByEmbedding true embedOk (scopedOnlySearch [exGoodToolHit "fetch".toList])
        exRegistry "q".toList ∧
    (exGoodToolHit "fetch".toList).collection ≠ "mcp-server-collection".toList ∧
    (exGoodServerHit "s-one".toList).collection = "mcp-server-collection".toList := by
  refine ⟨?_, ?_, ?_⟩
  · exact C7_collection_scoping.2.2.2.1 true embedOk
      (constSearch [exGoodToolHit "fetch".toList])
      (scopedOnlySearch [exGoodToolHit "fetch".toList]) exRegistry "q".toList
      (fun v => rfl)
  · exact C7_collection_scoping.2.2.2.2.2.1 [exGoodToolHit "fetch".toList]
      (by decide) (exGoodToolHit "fetch".toList) (List.mem_singleton.mpr rfl)
  · exact C7_collection_scoping.2.2.2.2.2.2 [exGoodServerHit "s-one".toList] 7
      (by decide) (exGoodServerHit "s-one".toList) (List.mem_singleton.mpr rfl)

/-- C9: find-tools searches with the hard-coded limit 5, exposes only a
prompt parameter in its input schema, and returns at most 5 tools whenever
the index search honors the limit it is passed. -/
theorem C9_find_tools_limit_is_five :
    toolSearchOptions.limit = 5 ∧
    findToolsToolDef.inputSchema.properties.map ToolSchemaProperty.name =
      ["prompt".toList] ∧
    findToolsToolDef.inputSchema.required = ["prompt".toList] ∧
    (∀ (hasClient : Bool) (embed : GoString → Except String EmbeddingVec)
       (search : EmbeddingVec → SearchOptions → Except String (List SearchResult))
       (registry : ToolRegistry) (prompt : GoString) (tools : List ToolInfo),
      (∀ v opts hits, search v opts = Except.ok hits → hits.length ≤ opts.limit.toNat) →
      findToolsByEmbedding hasClient embed search registry prompt = Except.ok tools →
      tools.length ≤ 5) ∧
    (∀ (hasClient : Bool) (embed : GoString → Except String EmbeddingVec)
       (search : EmbeddingVec → SearchOptions → Except String (List SearchResult))
       (registry : ToolRegistry) (req : Option FindToolsArgs) (resp : FindToolsResponse),
      (∀ v opts hits, search v opts = Except.ok hits → hits.length ≤ opts.limit.toNat) →
      findToolsRun hasClient embed search registry req = Except.ok resp →
      resp.tools.length ≤ 5) := by
  refine ⟨rfl, rfl, rfl, ?_, ?_⟩
  · intro hasClient embed search registry prompt tools hsearch h
    exact findToolsByEmbedding_length_le hasClient embed search registry prompt tools
      hsearch h
  · intro hasClient embed search registry req resp hsearch h
    cases req with
    | none => exact absurd h (by simp [findToolsRun])
    | some params =>
      by_cases hp : params.prompt = []
      · rw [findToolsRun, if_pos hp] at h
        exact absurd h (by simp)
      · rw [findToolsRun_ok hasClient embed search registry params hp] at h
        cases hfind : findToolsByEmbedding hasClient embed search registry
            params.prompt with
        | error e => rw [hfind] at h; exact absurd h (by simp)
        | ok tools =>
          rw [hfind] at h
          have hr := (Except.ok.injEq _ _).mp h
          subst hr
          exact findToolsByEmbedding_length_le hasClient embed search registry
            params.prompt tools hsearch hfind

/-- C9 witness: a concrete find-tools run through a limit-honoring scoped
search returns one tool, within the hard-coded bound of five. -/
theorem C9_find_tools_limit_is_five_witness :
    findToolsRun true embedOk (scopedOnlySearch [exGoodToolHit "fetch".toList]) exRegistry
        (some ⟨"q".toList⟩) =
      Except.ok ⟨[⟨"fetch".toList, "gets a page".toList, none⟩]⟩ ∧
    (FindToolsResponse.tools
        ⟨[⟨"fetch".toList, "gets a page".toList, none⟩]⟩).length ≤ 5 := by
  refine ⟨by rfl, ?_⟩
  refine C9_find_tools_limit_is_five.2.2.2.2 true embedOk
    (scopedOnlySearch [exGoodToolHit "fetch".toList]) exRegistry (some ⟨"q".toList⟩)
    ⟨[⟨"fetch".toList, "gets a page".toList, none⟩]⟩ ?_ (by rfl)
  intro v opts hits h
  unfold scopedOnlySearch at h
  split at h
  · rename_i hopt
    have hh := (Except.ok.injEq _ _).mp h
    subst hh
    subst hopt
    decide
  · exact absurd h (by simp)

/-! Lemmas about VectorDBClient.Close. -/

theorem closeOnce_returned (sessErr : Nat → Option String) (stopErr waitErr : Option String)
    (w : CloseWorld) :
    (closeOnce sessErr stopErr waitErr w).returned =
      if w.client.hasSession then sessErr w.sessionCloses else none := by
  cases h : w.client.hasSession <;> simp [closeOnce, h]

theorem closeOnce_world_hasSession (sessErr : Nat → Option String)
    (stopErr waitErr : Option String) (w : CloseWorld) :
    (closeOnce sessErr stopErr waitErr w).world.client.hasSession =
      w.client.hasSession := by
  simp [closeOnce]

theorem closeOnce_world_sessionCloses (sessErr : Nat → Option String)
    (stopErr waitErr : Option String) (w : CloseWorld) :
    (closeOnce sessErr stopErr waitErr w).world.sessionCloses =
      if w.client.hasSession then w.sessionCloses + 1 else w.sessionCloses := by
  cases h : w.client.hasSession <;> simp [closeOnce, h]

/-- C4 counterexample: the session field is never cleared by Close, so the
second invocation closes the underlying session again; under a session
whose repeated close reports an error, the second call returns that error,
refuting both the no-error promise for the second call and the claim that
only the first invocation's session-close error is ever returned. -/
theorem C4_close_counterexample :
    (closeOnce exSessErr none none (freshClientWorld "vector-db-1".toList)).returned =
      none ∧
    (closeOnce exSessErr none none
        (closeOnce exSessErr none none
          (freshClientWorld "vector-db-1".toList)).world).returned =
      some "session already closed" := by
  constructor <;> rfl

/-- C4 (amended): Close never propagates container-stop or process-wait
failures (its return value is exactly the current session-close result, or
none without a session), the container-stop failure is logged instead, and
the second and third calls return no error provided the underlying session
close reports no error when invoked again. -/
theorem C4_close_amended :
    (∀ (sessErr : Nat → Option String) (stopErr waitErr : Option String) (w : CloseWorld),
      (closeOnce sessErr stopErr waitErr w).returned =
        (if w.client.hasSession then sessErr w.sessionCloses else none)) ∧
    (∀ (sessErr : Nat → Option String) (st1 wa1 st2 wa2 st3 wa3 : Option String)
       (cname : GoString),
      (∀ k, 1 ≤ k → sessErr k = none) →
      (closeOnce sessErr st2 wa2
          (closeOnce sessErr st1 wa1 (freshClientWorld cname)).world).returned = none ∧
      (closeOnce sessErr st3 wa3
          (closeOnce sessErr st2 wa2
            (closeOnce sessErr st1 wa1 (freshClientWorld cname)).world).world).returned =
        none) ∧
    (∀ (sessErr : Nat → Option String) (e : String) (waitErr : Option String)
       (w : CloseWorld), w.client.containerName ≠ [] →
      "Container stop result: error (expected if already stopped)" ∈
        (closeOnce sessErr (some e) waitErr w).logs) := by
  refine ⟨closeOnce_returned, ?_, ?_⟩
  · intro sessErr st1 wa1 st2 wa2 st3 wa3 cname hrep
    have h1 := hrep 1 (by omega)
    have h2 := hrep 2 (by omega)
    constructor
    · rw [closeOnce_returned, closeOnce_world_hasSession, closeOnce_world_sessionCloses]
      simp [freshClientWorld, h1]
    · rw [closeOnce_returned, closeOnce_world_hasSession, closeOnce_world_hasSession,
        closeOnce_world_sessionCloses, closeOnce_world_hasSession,
        closeOnce_world_sessionCloses]
      simp [freshClientWorld, h2]
  · intro sessErr e waitErr w h
    cases hcmd : w.client.hasCmd <;> cases waitErr <;>
      simp [closeOnce, h, hcmd]

/-- C4 witness: the amended theorem applied to a benign session-close
environment and a fresh client. -/
theorem C4_close_amended_witness :
    (closeOnce (fun _ => none) (some "stop failed") (some "wait failed")
        (freshClientWorld "vector-db-9".toList)).returned = none ∧
    (closeOnce (fun _ => none) none none
        (closeOnce (fun _ => none) none none
          (freshClientWorld "vector-db-9".toList)).world).returned = none ∧
    "Container stop result: error (expected if already stopped)" ∈
      (closeOnce (fun _ => none) (some "stop failed") none
        (freshClientWorld "vector-db-9".toList)).logs := by
  refine ⟨?_, ?_, ?_⟩
  · exact C4_close_amended.1 (fun _ => none) (some "stop failed") (some "wait failed")
      (freshClientWorld "vector-db-9".toList)
  · exact (C4_close_amended.2.1 (fun _ => none) none none none none none none
      "vector-db-9".toList (fun k _ => rfl)).1
  · exact C4_close_amended.2.2 (fun _ => none) "stop failed" none
      (freshClientWorld "vector-db-9".toList) (by decide)
